import Mathlib

/-!
Verification of the mailbox polling and delivery core of a disposable-email
chat bot (src/main.py).  Python values that flow through the program (JSON
payloads, message ids, registry entries) are modelled by the inductive `Val`;
the network and the chat platform are modelled as oracles supplying the
outcome of each HTTP request and of each outbound notification.
-/

/-- A Python/JSON value as it appears in provider payloads.  JSON numbers are
modelled as integers (fractional values do not occur in the properties
considered); Python's cross-type equalities (True == 1, 0 == 0.0) are not
modelled, since no claim compares ids of different primitive types. -/
inductive Val where
  | vnull
  | vbool (b : Bool)
  | vint (n : Int)
  | vstr (s : String)
  | vlist (items : List Val)
  | vdict (entries : List (String × Val))

mutual
/-- Structural equality test for `Val` (the `deriving` handler does not
support this nested inductive, so the decision procedure is spelled out). -/
def Val.decEq : (a b : Val) → Decidable (a = b)
  | .vnull, .vnull => isTrue rfl
  | .vbool x, .vbool y =>
      if h : x = y then isTrue (by rw [h])
      else isFalse (fun hh => h (Val.vbool.inj hh))
  | .vint x, .vint y =>
      if h : x = y then isTrue (by rw [h])
      else isFalse (fun hh => h (Val.vint.inj hh))
  | .vstr x, .vstr y =>
      if h : x = y then isTrue (by rw [h])
      else isFalse (fun hh => h (Val.vstr.inj hh))
  | .vlist x, .vlist y =>
      match Val.decEqList x y with
      | isTrue h => isTrue (by rw [h])
      | isFalse h => isFalse (fun hh => h (Val.vlist.inj hh))
  | .vdict x, .vdict y =>
      match Val.decEqDict x y with
      | isTrue h => isTrue (by rw [h])
      | isFalse h => isFalse (fun hh => h (Val.vdict.inj hh))
  | .vnull, .vbool _ => isFalse nofun
  | .vnull, .vint _ => isFalse nofun
  | .vnull, .vstr _ => isFalse nofun
  | .vnull, .vlist _ => isFalse nofun
  | .vnull, .vdict _ => isFalse nofun
  | .vbool _, .vnull => isFalse nofun
  | .vbool _, .vint _ => isFalse nofun
  | .vbool _, .vstr _ => isFalse nofun
  | .vbool _, .vlist _ => isFalse nofun
  | .vbool _, .vdict _ => isFalse nofun
  | .vint _, .vnull => isFalse nofun
  | .vint _, .vbool _ => isFalse nofun
  | .vint _, .vstr _ => isFalse nofun
  | .vint _, .vlist _ => isFalse nofun
  | .vint _, .vdict _ => isFalse nofun
  | .vstr _, .vnull => isFalse nofun
  | .vstr _, .vbool _ => isFalse nofun
  | .vstr _, .vint _ => isFalse nofun
  | .vstr _, .vlist _ => isFalse nofun
  | .vstr _, .vdict _ => isFalse nofun
  | .vlist _, .vnull => isFalse nofun
  | .vlist _, .vbool _ => isFalse nofun
  | .vlist _, .vint _ => isFalse nofun
  | .vlist _, .vstr _ => isFalse nofun
  | .vlist _, .vdict _ => isFalse nofun
  | .vdict _, .vnull => isFalse nofun
  | .vdict _, .vbool _ => isFalse nofun
  | .vdict _, .vint _ => isFalse nofun
  | .vdict _, .vstr _ => isFalse nofun
  | .vdict _, .vlist _ => isFalse nofun

/-- Equality test for lists of values. -/
def Val.decEqList : (a b : List Val) → Decidable (a = b)
  | [], [] => isTrue rfl
  | [], _ :: _ => isFalse nofun
  | _ :: _, [] => isFalse nofun
  | x :: xs, y :: ys =>
      match Val.decEq x y with
      | isFalse h1 => isFalse (fun hh => h1 (List.cons.inj hh).1)
      | isTrue h1 =>
        match Val.decEqList xs ys with
        | isTrue h2 => isTrue (by rw [h1, h2])
        | isFalse h2 => isFalse (fun hh => h2 (List.cons.inj hh).2)

/-- Equality test for dict entry lists. -/
def Val.decEqDict : (a b : List (String × Val)) → Decidable (a = b)
  | [], [] => isTrue rfl
  | [], _ :: _ => isFalse nofun
  | _ :: _, [] => isFalse nofun
  | (k, v) :: xs, (k', v') :: ys =>
      if h0 : k = k' then
        match Val.decEq v v' with
        | isFalse h1 => isFalse (fun hh => h1 (congrArg (fun l => (l.headD (k, v)).2) hh))
        | isTrue h1 =>
          match Val.decEqDict xs ys with
          | isTrue h2 => isTrue (by rw [h0, h1, h2])
          | isFalse h2 => isFalse (fun hh => h2 (List.cons.inj hh).2)
      else isFalse (fun hh => h0 (congrArg (fun l => (l.headD (k, v)).1) hh))
end

instance : DecidableEq Val := Val.decEq

/-- Python truthiness (`if not mid`): None, False, 0, "", [], {} are falsy. -/
def Val.truthy : Val → Bool
  | .vnull => false
  | .vbool b => b
  | .vint n => n != 0
  | .vstr s => s != ""
  | .vlist xs => !xs.isEmpty
  | .vdict kvs => !kvs.isEmpty

/-- Whether a value may be a member of a Python set (`mid in seen` raises
TypeError on lists and dicts, which are unhashable). -/
def Val.hashable : Val → Bool
  | .vlist _ => false
  | .vdict _ => false
  | _ => true

/-- Python dict lookup (`d.get(k)` / `k in d` / `d[k]`); dicts are modelled as
association lists with unique keys, first match wins. -/
def dictGet (kvs : List (String × Val)) (k : String) : Option Val :=
  (kvs.find? (fun p => p.1 == k)).map (fun p => p.2)

/-- Python `set.add`: membership-preserving insert. -/
def setAdd (s : List Val) (v : Val) : List Val :=
  if v ∈ s then s else v :: s

mutual
/-- Python `repr` of a value (string escaping inside quotes is elided; no
claim inspects the repr of a string containing quote characters). -/
def Val.pyrepr : Val → String
  | .vnull => "None"
  | .vbool b => if b then "True" else "False"
  | .vint n => toString n
  | .vstr s => "'" ++ s ++ "'"
  | .vlist xs => "[" ++ Val.reprItems xs ++ "]"
  | .vdict kvs => "\x7b" ++ Val.reprEntries kvs ++ "\x7d"

/-- Comma-separated reprs of the items of a Python list. -/
def Val.reprItems : List Val → String
  | [] => ""
  | [x] => x.pyrepr
  | x :: xs => x.pyrepr ++ ", " ++ Val.reprItems xs

/-- Comma-separated reprs of the entries of a Python dict. -/
def Val.reprEntries : List (String × Val) → String
  | [] => ""
  | [(k, v)] => "'" ++ k ++ "': " ++ v.pyrepr
  | (k, v) :: kvs => "'" ++ k ++ "': " ++ v.pyrepr ++ ", " ++ Val.reprEntries kvs
end

/-- Python `str` of a value (as used by f-string interpolation): identity on
strings, `repr` on everything else. -/
def Val.pystr : Val → String
  | .vstr s => s
  | v => v.pyrepr

/-! ## Configuration constants (src/main.py, CONFIG block) -/

def MAILCX_API_BASE : String := "https://mail.cx/api/api/v1/mailbox/"

def DEFAULT_DOMAIN : String := "nqmo.com"

def USERNAME_MIN : Nat := 6

def USERNAME_MAX : Nat := 7

def POLL_INTERVAL : Nat := 10

/-! ## Mail Provider Client: fetch_mailcx -/

/-- Bytes left unescaped by `urllib.parse.quote` with `safe=""`:
ASCII letters, digits, and `_.-~`. -/
def isSafeByte (n : Nat) : Bool :=
  (48 ≤ n && n ≤ 57) || (65 ≤ n && n ≤ 90) || (97 ≤ n && n ≤ 122) ||
    n == 45 || n == 46 || n == 95 || n == 126

def hexDigits : List Char := "0123456789ABCDEF".data

/-- Percent-encoding of a single UTF-8 byte. -/
def quoteByte (n : Nat) : String :=
  if isSafeByte n then String.mk [Char.ofNat n]
  else "%" ++ String.mk [hexDigits.getD (n / 16 % 16) '0', hexDigits.getD (n % 16) '0']

/-- `urllib.parse.quote(email, safe="")`. -/
def quote (s : String) : String :=
  String.join ((s.toUTF8.toList.map (fun b => b.toNat)).map quoteByte)

/-- Python `str.rstrip("/")`: drop trailing slashes. -/
def rstripSlash (s : String) : String :=
  String.mk ((s.data.reverse.dropWhile (fun c => c == '/')).reverse)

/-- URL built by fetch_mailcx: base (trailing slash stripped) + "/" + the
percent-encoded address, plus "/" + message id when a truthy (non-empty)
message id is passed (`if message_id:`). -/
def fetchUrl (email : String) (message_id : Option String) : String :=
  let url := rstripSlash MAILCX_API_BASE ++ "/" ++ quote email
  match message_id with
  | some mid => if mid ≠ "" then url ++ "/" ++ mid else url
  | none => url

/-- Outcome of one HTTP GET, supplied by the environment: either an exception
raised while issuing the request or awaiting the body (transport failure,
the 15-second timeout, ...), or a response with a status code, its body text,
and the result of attempting to parse the body as JSON (`resp.json()`:
`none` when parsing raises). -/
inductive HttpOutcome where
  | exn (e : String)
  | resp (status : Nat) (text : String) (json : Option Val)

/-- fetch_mailcx (src/main.py:58-72): on a raised exception returns the dict
`{"error": str(e)}`; otherwise returns the parsed JSON body if `resp.json()`
succeeds and the raw body text if it does not.  The status code is never
inspected, and nothing is ever raised past this boundary. -/
def fetch_mailcx (outcome : HttpOutcome) : Val :=
  match outcome with
  | .exn e => .vdict [("error", .vstr e)]
  | .resp _ text json =>
      match json with
      | some j => j
      | none => .vstr text

/-- Whether a value is the error result produced by fetch_mailcx for a raised
exception (the shape the spec calls a FetchError carrying its cause). -/
def isFetchError : Val → Bool
  | .vdict [("error", .vstr _)] => true
  | _ => false

/-! ## View-action handler: callback_view_message -/

/-- Splits a list at the first occurrence of the separator character,
returning the parts before and after it; `none` when the separator does not
occur.  This is Python `s.split("|", 1)` followed by unpacking into two
variables, which raises ValueError exactly when there is no separator. -/
def splitFirstAux : List Char → Option (List Char × List Char)
  | [] => none
  | c :: cs =>
      if c = '|' then some ([], cs)
      else
        match splitFirstAux cs with
        | some (a, b) => some (c :: a, b)
        | none => none

/-- `email, mid = query.data.split("|", 1)` (src/main.py:99). -/
def splitToken (s : String) : Option (String × String) :=
  (splitFirstAux s.data).map (fun p => (String.mk p.1, String.mk p.2))

/-- What the handler shows the user: the "❌ Invalid data" reply, or an
edited message carrying the rendered text. -/
inductive ViewResult where
  | invalidData
  | message (text : String)
deriving DecidableEq

def TRUNC_LIMIT : Nat := 3800

def TRUNC_MARKER : String := "\n...truncated..."

/-- `if len(text) > 3800: text = text[:3800] + "\n...truncated..."`
(src/main.py:115-116). -/
def truncateText (t : String) : String :=
  if t.length > TRUNC_LIMIT then String.mk (t.data.take TRUNC_LIMIT) ++ TRUNC_MARKER
  else t

/-- Formatting of the fetched message (src/main.py:107-113): dict results are
rendered from their subject/from/body fields with placeholders for missing
fields; any other result is rendered as `str(data)`. -/
def renderFetched (data : Val) : String :=
  match data with
  | .vdict kvs =>
      let subj := match dictGet kvs "subject" with | some v => v.pystr | none => "(no subject)"
      let frm := match dictGet kvs "from" with | some v => v.pystr | none => "unknown"
      let body := match dictGet kvs "body" with | some v => v.pystr | none => "(no body)"
      "*Subject:* " ++ subj ++ "\n*From:* " ++ frm ++ "\n\n" ++ body
  | v => v.pystr

/-- callback_view_message (src/main.py:94-117).  Takes the callback token
(`query.data`) and the outcome of the provider request the handler would
issue; returns what is shown to the user together with the list of provider
calls made, each recorded as (address, message id passed). -/
def callback_view_message (tokenData : String) (outcome : HttpOutcome) :
    ViewResult × List (String × Option String) :=
  match splitToken tokenData with
  | none => (.invalidData, [])
  | some (email, mid) =>
      let data := fetch_mailcx outcome
      (.message (truncateText (renderFetched data)), [(email, some mid)])

/-! ## Mailbox Address Generator and Subscription Registry -/

/-- `random.choice(seq)`: the environment supplies an arbitrary index, taken
modulo the sequence length so that every oracle value denotes a valid pick. -/
def choice {α : Type} (l : List α) (d : α) (i : Nat) : α :=
  l.getD (i % l.length) d

/-- The random draws consumed by one call to make_random_username. -/
structure Rng where
  pickLen : Nat
  pickFirst : Nat
  pickRest : Nat → Nat

def ascii_lowercase : List Char := "abcdefghijklmnopqrstuvwxyz".data

def digitChars : List Char := "0123456789".data

/-- `alphabet = string.ascii_lowercase + string.digits` (src/main.py:52). -/
def alphabet : List Char := ascii_lowercase ++ digitChars

/-- make_random_username (src/main.py:50-55): length 6 or 7 chosen at random,
first character a lowercase letter, remaining characters from the lowercase
plus digits alphabet. -/
def make_random_username (r : Rng) : String :=
  let length := choice [USERNAME_MIN, USERNAME_MAX] 0 r.pickLen
  let first := choice ascii_lowercase 'a' r.pickFirst
  let rest := (List.range (length - 1)).map (fun i => choice alphabet 'a' (r.pickRest i))
  String.mk (first :: rest)

/-- One entry of USER_MAILBOXES: `{"email": ..., "seen": set()}`. -/
structure SubState where
  email : String
  seen : List Val
deriving DecidableEq

/-- USER_MAILBOXES: a Python dict from telegram user id to mailbox state,
modelled as an association list with unique keys in insertion order. -/
abbrev Registry := List (Int × SubState)

/-- Python dict assignment `d[k] = v`: replaces the value at an existing key
in place, appends a new key at the end. -/
def dictSet (reg : Registry) (k : Int) (v : SubState) : Registry :=
  match reg with
  | [] => [(k, v)]
  | (k', v') :: rest => if k' = k then (k, v) :: rest else (k', v') :: dictSet rest k v

/-- Python dict lookup for the registry. -/
def dictFind (reg : Registry) (k : Int) : Option SubState :=
  (reg.find? (fun p => p.1 == k)).map (fun p => p.2)

/-- cmd_generate (src/main.py:82-91): draws a username, forms
`f"{username}@{DEFAULT_DOMAIN}"`, installs a fresh subscription with an empty
seen set under the user's id, and replies with the address. -/
def cmd_generate (r : Rng) (user_id : Int) (reg : Registry) : Registry × String :=
  let username := make_random_username r
  let email := username ++ "@" ++ DEFAULT_DOMAIN
  (dictSet reg user_id ⟨email, []⟩, email)

/-! ## Poll Loop: poll_inboxes -/

/-- Extraction of the message sequence from a listMessages payload
(src/main.py:129-134): a dict is consulted for its "messages" field
(`isinstance(mails, dict) and "messages" in mails`), a list is used as is,
and any other shape hits the `continue`, which skips the subscription for
the tick. -/
def extractMessages : Val → Option Val
  | .vdict kvs => dictGet kvs "messages"
  | .vlist xs => some (.vlist xs)
  | _ => none

/-- Python iteration (`for msg in messages`) over the extracted value: lists
yield their items, strings yield their one-character substrings, dicts yield
their keys, and everything else raises TypeError. -/
def pyIter : Val → Except String (List Val)
  | .vlist xs => .ok xs
  | .vstr s => .ok (s.data.map (fun c => .vstr (String.mk [c])))
  | .vdict kvs => .ok (kvs.map (fun p => .vstr p.1))
  | _ => .error "TypeError: object is not iterable"

/-- The notification text built for one new message (src/main.py:141-145),
with each field run through Python str interpolation. -/
def summaryText (kvs : List (String × Val)) : String :=
  let subj := match dictGet kvs "subject" with | some v => v.pystr | none => "(no subject)"
  let frm := match dictGet kvs "from" with | some v => v.pystr | none => "unknown"
  let date := match dictGet kvs "date" with | some v => v.pystr | none => ""
  "✉️ *New Mail!*\n\n*Subject:* " ++ subj ++ "\n*From:* " ++ frm ++ "\n*Date:* " ++ date

/-- One attempted send_message call: the message id it is for, the text, and
the callback token `f"{email}|{mid}"` attached to the View button. -/
structure MsgCall where
  mid : Val
  text : String
  callback_data : String
deriving DecidableEq

/-- Result of processing one subscription within a tick: the notify calls
attempted in order, the final seen set, and the uncaught exception if one was
raised (which kills the whole polling task). -/
structure SubResult where
  calls : List MsgCall
  seen : List Val
  err : Option String
deriving DecidableEq

/-- The per-message loop of poll_inboxes (src/main.py:136-153).  For each
entry: `mid = msg.get("id")` (AttributeError on non-dicts); skip when mid is
falsy; `mid in seen` (TypeError on unhashable ids) and skip when already
seen; otherwise attempt the send, adding mid to seen only when the send
succeeds (`ok mid`), and only log on failure. -/
def processMsgs (ok : Val → Bool) (email : String) : List Val → List Val → SubResult
  | [], seen => ⟨[], seen, none⟩
  | .vdict kvs :: rest, seen =>
      let mid := (dictGet kvs "id").getD .vnull
      if !mid.truthy then processMsgs ok email rest seen
      else if !mid.hashable then ⟨[], seen, some "TypeError: unhashable type"⟩
      else if mid ∈ seen then processMsgs ok email rest seen
      else
        let call : MsgCall := ⟨mid, summaryText kvs, email ++ "|" ++ mid.pystr⟩
        let r := processMsgs ok email rest (if ok mid then setAdd seen mid else seen)
        ⟨call :: r.calls, r.seen, r.err⟩
  | _ :: _, seen => ⟨[], seen, some "AttributeError: object has no attribute get"⟩

/-- Processing of one subscription given the value fetch_mailcx returned:
shape dispatch, then the per-message loop. -/
def processPayload (ok : Val → Bool) (email : String) (mails : Val) (seen : List Val) :
    SubResult :=
  match extractMessages mails with
  | none => ⟨[], seen, none⟩
  | some mv =>
      match pyIter mv with
      | .error e => ⟨[], seen, some e⟩
      | .ok msgs => processMsgs ok email msgs seen

/-- A message entry the per-message loop can process without raising: a dict
whose id, when truthy, is hashable. -/
def safeMsg : Val → Bool
  | .vdict kvs => !((dictGet kvs "id").getD .vnull).truthy
      || ((dictGet kvs "id").getD .vnull).hashable
  | _ => false

/-- A listMessages result the tick survives: either a shape that is skipped,
or an iterable message sequence all of whose entries are safe. -/
def safePayload (v : Val) : Bool :=
  match extractMessages v with
  | none => true
  | some mv =>
      match pyIter mv with
      | .error _ => false
      | .ok msgs => msgs.all safeMsg

/-- The environment of one tick: the outcome of the provider request for
each address, and whether the outbound send succeeds for a given user and
message id. -/
structure TickEnv where
  fetch : String → HttpOutcome
  sendOk : Int → Val → Bool

/-- Observable result of one tick of poll_inboxes: the addresses fetched in
order, the send_message calls attempted (tagged with their user), the
registry afterwards, and the uncaught exception when the tick crashed. -/
structure TickResult where
  fetches : List String
  calls : List (Int × MsgCall)
  reg : Registry
  err : Option String
deriving DecidableEq

/-- One tick of poll_inboxes (src/main.py:123-153): iterate a snapshot of the
registry; for each subscription fetch the mailbox and process the messages.
An uncaught exception aborts the remaining subscriptions (and the loop), with
states already mutated kept. -/
def poll_inboxes_tick (env : TickEnv) : Registry → TickResult
  | [] => ⟨[], [], [], none⟩
  | (u, st) :: rest =>
      let r := processPayload (env.sendOk u) st.email (fetch_mailcx (env.fetch st.email)) st.seen
      match r.err with
      | some e =>
          ⟨[st.email], r.calls.map (fun c => (u, c)), (u, ⟨st.email, r.seen⟩) :: rest, some e⟩
      | none =>
          let t := poll_inboxes_tick env rest
          ⟨st.email :: t.fetches, (r.calls.map (fun c => (u, c))) ++ t.calls,
            (u, ⟨st.email, r.seen⟩) :: t.reg, t.err⟩

/-- Repeated ticks of the polling task, one environment per tick.  A tick
that raises kills the background task: no further ticks run. -/
def poll_inboxes_run : List TickEnv → Registry →
    List (List (Int × MsgCall)) × Registry × Option String
  | [], reg => ([], reg, none)
  | env :: envs, reg =>
      let t := poll_inboxes_tick env reg
      match t.err with
      | some e => ([t.calls], t.reg, some e)
      | none =>
          let rest := poll_inboxes_run envs t.reg
          (t.calls :: rest.1, rest.2.1, rest.2.2)

/-! ## Helper lemmas -/

theorem string_mk_data (s : String) : String.mk s.data = s := rfl

theorem mem_setAdd (s : List Val) (m v : Val) : v ∈ setAdd s m ↔ v = m ∨ v ∈ s := by
  unfold setAdd
  split
  · constructor
    · exact Or.inr
    · rintro (rfl | hv) <;> assumption
  · simp [List.mem_cons]

theorem splitFirstAux_of_not_mem (cs : List Char) (h : '|' ∉ cs) :
    splitFirstAux cs = none := by
  induction cs with
  | nil => rfl
  | cons c cs ih =>
    simp only [List.mem_cons, not_or] at h
    simp only [splitFirstAux]
    rw [if_neg (fun hc => h.1 hc.symm), ih h.2]

theorem splitFirstAux_append (a b : List Char) (h : '|' ∉ a) :
    splitFirstAux (a ++ '|' :: b) = some (a, b) := by
  induction a with
  | nil => simp [splitFirstAux]
  | cons c cs ih =>
    simp only [List.mem_cons, not_or] at h
    simp only [List.cons_append, List.append_eq, splitFirstAux]
    rw [if_neg (fun hc => h.1 hc.symm), ih h.2]

theorem splitFirstAux_isSome_of_mem (cs : List Char) (h : '|' ∈ cs) :
    (splitFirstAux cs).isSome = true := by
  induction cs with
  | nil => cases h
  | cons c cs ih =>
    simp only [splitFirstAux]
    by_cases hc : c = '|'
    · simp [hc]
    · rcases List.mem_cons.mp h with hh | hh
      · exact absurd hh.symm hc
      · have := ih hh
        cases hs : splitFirstAux cs with
        | none => rw [hs] at this; cases this
        | some p => simp [hc, hs]

theorem splitToken_eq_none_iff (s : String) : splitToken s = none ↔ '|' ∉ s.data := by
  unfold splitToken
  constructor
  · intro h hm
    have hsome := splitFirstAux_isSome_of_mem s.data hm
    rw [Option.map_eq_none'] at h
    rw [h] at hsome
    cases hsome
  · intro h
    rw [splitFirstAux_of_not_mem _ h]
    rfl

theorem splitToken_append (a b : String) (h : '|' ∉ a.data) :
    splitToken (a ++ "|" ++ b) = some (a, b) := by
  unfold splitToken
  have hd : (a ++ "|" ++ b).data = a.data ++ '|' :: b.data := by
    rw [String.data_append, String.data_append, List.append_assoc]
    rfl
  rw [hd, splitFirstAux_append _ _ h]
  rfl

theorem choice_mem {α : Type} (l : List α) (d : α) (i : Nat) (h : l ≠ []) :
    choice l d i ∈ l := by
  have hl : 0 < l.length := List.length_pos.mpr h
  have hm : i % l.length < l.length := Nat.mod_lt _ hl
  unfold choice
  rw [List.getD_eq_getElem l d hm]
  exact List.getElem_mem hm

theorem dictSet_nil (k : Int) (v : SubState) : dictSet [] k v = [(k, v)] := rfl

theorem dictSet_cons_eq (k : Int) (v v' : SubState) (rest : Registry) :
    dictSet ((k, v') :: rest) k v = (k, v) :: rest := by
  simp [dictSet]

theorem dictSet_cons_ne (k k' : Int) (v v' : SubState) (rest : Registry) (h : k' ≠ k) :
    dictSet ((k', v') :: rest) k v = (k', v') :: dictSet rest k v := by
  simp [dictSet, h]

theorem dictFind_dictSet (reg : Registry) (k : Int) (v : SubState) :
    dictFind (dictSet reg k v) k = some v := by
  induction reg with
  | nil => simp [dictSet, dictFind, List.find?]
  | cons p rest ih =>
    obtain ⟨k', v'⟩ := p
    by_cases h : k' = k
    · subst h
      rw [dictSet_cons_eq]
      simp [dictFind, List.find?]
    · rw [dictSet_cons_ne _ _ _ _ _ h]
      unfold dictFind
      rw [List.find?_cons_of_neg _ (by simp [h])]
      exact ih

theorem mem_map_fst_dictSet (reg : Registry) (k : Int) (v : SubState) (a : Int) :
    a ∈ (dictSet reg k v).map Prod.fst ↔ a = k ∨ a ∈ reg.map Prod.fst := by
  induction reg with
  | nil => simp [dictSet]
  | cons p rest ih =>
    obtain ⟨k', v'⟩ := p
    by_cases h : k' = k
    · subst h
      rw [dictSet_cons_eq]
      simp
    · rw [dictSet_cons_ne _ _ _ _ _ h]
      simp only [List.map_cons, List.mem_cons, ih]
      tauto

theorem nodup_dictSet (reg : Registry) (k : Int) (v : SubState)
    (h : (reg.map Prod.fst).Nodup) : ((dictSet reg k v).map Prod.fst).Nodup := by
  induction reg with
  | nil => simp [dictSet]
  | cons p rest ih =>
    obtain ⟨k', v'⟩ := p
    simp only [List.map_cons, List.nodup_cons] at h
    by_cases hk : k' = k
    · subst hk
      rw [dictSet_cons_eq]
      simp only [List.map_cons, List.nodup_cons]
      exact h
    · rw [dictSet_cons_ne _ _ _ _ _ hk]
      simp only [List.map_cons, List.nodup_cons]
      refine ⟨fun hm => ?_, ih h.2⟩
      rcases (mem_map_fst_dictSet rest k v k').mp hm with rfl | hm'
      · exact hk rfl
      · exact h.1 hm'

theorem mem_dictSet_self (reg : Registry) (k : Int) (v st : SubState)
    (hnd : (reg.map Prod.fst).Nodup) (hm : (k, st) ∈ dictSet reg k v) : st = v := by
  induction reg with
  | nil =>
    rw [dictSet_nil] at hm
    simp only [List.mem_singleton] at hm
    exact congrArg Prod.snd hm
  | cons p rest ih =>
    obtain ⟨k', v'⟩ := p
    simp only [List.map_cons, List.nodup_cons] at hnd
    by_cases hk : k' = k
    · subst hk
      rw [dictSet_cons_eq] at hm
      rcases List.mem_cons.mp hm with hh | hh
      · exact congrArg Prod.snd hh
      · exact absurd (List.mem_map_of_mem Prod.fst hh) hnd.1
    · rw [dictSet_cons_ne _ _ _ _ _ hk] at hm
      rcases List.mem_cons.mp hm with hh | hh
      · exact absurd (congrArg Prod.fst hh).symm hk
      · exact ih hnd.2 hh

def Val.isDict : Val → Bool
  | .vdict _ => true
  | _ => false

theorem processMsgs_nil (ok : Val → Bool) (email : String) (seen : List Val) :
    processMsgs ok email [] seen = ⟨[], seen, none⟩ := rfl

theorem processMsgs_cons_nondict (ok : Val → Bool) (email : String) (m : Val)
    (rest : List Val) (seen : List Val) (h : m.isDict = false) :
    processMsgs ok email (m :: rest) seen =
      ⟨[], seen, some "AttributeError: object has no attribute get"⟩ := by
  cases m <;> first
    | rfl
    | exact absurd h (by simp [Val.isDict])

theorem processMsgs_skip_falsy (ok : Val → Bool) (email : String)
    (kvs : List (String × Val)) (rest : List Val) (seen : List Val)
    (h : ((dictGet kvs "id").getD .vnull).truthy = false) :
    processMsgs ok email (.vdict kvs :: rest) seen = processMsgs ok email rest seen := by
  simp [processMsgs, h]

theorem processMsgs_unhashable (ok : Val → Bool) (email : String)
    (kvs : List (String × Val)) (rest : List Val) (seen : List Val)
    (h1 : ((dictGet kvs "id").getD .vnull).truthy = true)
    (h2 : ((dictGet kvs "id").getD .vnull).hashable = false) :
    processMsgs ok email (.vdict kvs :: rest) seen =
      ⟨[], seen, some "TypeError: unhashable type"⟩ := by
  simp [processMsgs, h1, h2]

theorem processMsgs_skip_seen (ok : Val → Bool) (email : String)
    (kvs : List (String × Val)) (rest : List Val) (seen : List Val)
    (h1 : ((dictGet kvs "id").getD .vnull).truthy = true)
    (h2 : ((dictGet kvs "id").getD .vnull).hashable = true)
    (h3 : (dictGet kvs "id").getD .vnull ∈ seen) :
    processMsgs ok email (.vdict kvs :: rest) seen = processMsgs ok email rest seen := by
  simp [processMsgs, h1, h2, h3]

theorem processMsgs_notify (ok : Val → Bool) (email : String)
    (kvs : List (String × Val)) (rest : List Val) (seen : List Val)
    (h1 : ((dictGet kvs "id").getD .vnull).truthy = true)
    (h2 : ((dictGet kvs "id").getD .vnull).hashable = true)
    (h3 : (dictGet kvs "id").getD .vnull ∉ seen) :
    processMsgs ok email (.vdict kvs :: rest) seen =
      ⟨⟨(dictGet kvs "id").getD .vnull, summaryText kvs,
          email ++ "|" ++ ((dictGet kvs "id").getD .vnull).pystr⟩ ::
        (processMsgs ok email rest
          (if ok ((dictGet kvs "id").getD .vnull)
           then setAdd seen ((dictGet kvs "id").getD .vnull) else seen)).calls,
       (processMsgs ok email rest
          (if ok ((dictGet kvs "id").getD .vnull)
           then setAdd seen ((dictGet kvs "id").getD .vnull) else seen)).seen,
       (processMsgs ok email rest
          (if ok ((dictGet kvs "id").getD .vnull)
           then setAdd seen ((dictGet kvs "id").getD .vnull) else seen)).err⟩ := by
  simp [processMsgs, h1, h2, h3]

theorem processMsgs_seen_mono (ok : Val → Bool) (email : String) (msgs : List Val) :
    ∀ seen v, v ∈ seen → v ∈ (processMsgs ok email msgs seen).seen := by
  induction msgs with
  | nil =>
    intro seen v hv
    rw [processMsgs_nil]
    exact hv
  | cons m rest ih =>
    intro seen v hv
    cases m with
    | vdict kvs =>
      by_cases h1 : ((dictGet kvs "id").getD .vnull).truthy
      · by_cases h2 : ((dictGet kvs "id").getD .vnull).hashable
        · by_cases h3 : (dictGet kvs "id").getD .vnull ∈ seen
          · rw [processMsgs_skip_seen _ _ _ _ _ h1 h2 h3]
            exact ih seen v hv
          · rw [processMsgs_notify _ _ _ _ _ h1 h2 h3]
            refine ih _ v ?_
            by_cases ho : ok ((dictGet kvs "id").getD .vnull) <;>
              simp [ho, mem_setAdd, hv]
        · rw [processMsgs_unhashable _ _ _ _ _ h1 (by simpa using h2)]
          exact hv
      · rw [processMsgs_skip_falsy _ _ _ _ _ (by simpa using h1)]
        exact ih seen v hv
    | vnull => rw [processMsgs_cons_nondict _ _ _ _ _ (by rfl)]; exact hv
    | vbool b => rw [processMsgs_cons_nondict _ _ _ _ _ (by rfl)]; exact hv
    | vint n => rw [processMsgs_cons_nondict _ _ _ _ _ (by rfl)]; exact hv
    | vstr s => rw [processMsgs_cons_nondict _ _ _ _ _ (by rfl)]; exact hv
    | vlist xs => rw [processMsgs_cons_nondict _ _ _ _ _ (by rfl)]; exact hv

theorem processMsgs_not_called_of_seen (ok : Val → Bool) (email : String) (msgs : List Val) :
    ∀ seen mid, mid ∈ seen →
      ∀ c ∈ (processMsgs ok email msgs seen).calls, c.mid ≠ mid := by
  induction msgs with
  | nil =>
    intro seen mid _ c hc
    rw [processMsgs_nil] at hc
    cases hc
  | cons m rest ih =>
    intro seen mid hmid c hc
    cases m with
    | vdict kvs =>
      by_cases h1 : ((dictGet kvs "id").getD .vnull).truthy
      · by_cases h2 : ((dictGet kvs "id").getD .vnull).hashable
        · by_cases h3 : (dictGet kvs "id").getD .vnull ∈ seen
          · rw [processMsgs_skip_seen _ _ _ _ _ h1 h2 h3] at hc
            exact ih seen mid hmid c hc
          · rw [processMsgs_notify _ _ _ _ _ h1 h2 h3] at hc
            rcases List.mem_cons.mp hc with hh | hh
            · subst hh
              intro hcm
              simp only at hcm
              rw [hcm] at h3
              exact h3 hmid
            · refine ih _ mid ?_ c hh
              by_cases ho : ok ((dictGet kvs "id").getD .vnull) <;>
                simp [ho, mem_setAdd, hmid]
        · rw [processMsgs_unhashable _ _ _ _ _ h1 (by simpa using h2)] at hc
          cases hc
      · rw [processMsgs_skip_falsy _ _ _ _ _ (by simpa using h1)] at hc
        exact ih seen mid hmid c hc
    | vnull => rw [processMsgs_cons_nondict _ _ _ _ _ (by rfl)] at hc; cases hc
    | vbool b => rw [processMsgs_cons_nondict _ _ _ _ _ (by rfl)] at hc; cases hc
    | vint n => rw [processMsgs_cons_nondict _ _ _ _ _ (by rfl)] at hc; cases hc
    | vstr s => rw [processMsgs_cons_nondict _ _ _ _ _ (by rfl)] at hc; cases hc
    | vlist xs => rw [processMsgs_cons_nondict _ _ _ _ _ (by rfl)] at hc; cases hc

theorem processMsgs_seen_iff (ok : Val → Bool) (email : String) (msgs : List Val) :
    ∀ seen v, v ∈ (processMsgs ok email msgs seen).seen ↔
      v ∈ seen ∨ ∃ c ∈ (processMsgs ok email msgs seen).calls, c.mid = v ∧ ok v = true := by
  induction msgs with
  | nil =>
    intro seen v
    rw [processMsgs_nil]
    simp
  | cons m rest ih =>
    intro seen v
    cases m with
    | vdict kvs =>
      by_cases h1 : ((dictGet kvs "id").getD .vnull).truthy
      · by_cases h2 : ((dictGet kvs "id").getD .vnull).hashable
        · by_cases h3 : (dictGet kvs "id").getD .vnull ∈ seen
          · rw [processMsgs_skip_seen _ _ _ _ _ h1 h2 h3]
            exact ih seen v
          · rw [processMsgs_notify _ _ _ _ _ h1 h2 h3]
            simp only [List.mem_cons]
            rw [ih _ v]
            by_cases ho : ok ((dictGet kvs "id").getD .vnull)
            · simp only [if_pos ho, mem_setAdd]
              constructor
              · rintro ((rfl | hv) | ⟨c, hc, hcm, hok⟩)
                · exact Or.inr ⟨_, Or.inl rfl, rfl, ho⟩
                · exact Or.inl hv
                · exact Or.inr ⟨c, Or.inr hc, hcm, hok⟩
              · rintro (hv | ⟨c, (rfl | hc), hcm, hok⟩)
                · exact Or.inl (Or.inr hv)
                · exact Or.inl (Or.inl hcm.symm)
                · exact Or.inr ⟨c, hc, hcm, hok⟩
            · simp only [if_neg ho]
              constructor
              · rintro (hv | ⟨c, hc, hcm, hok⟩)
                · exact Or.inl hv
                · exact Or.inr ⟨c, Or.inr hc, hcm, hok⟩
              · rintro (hv | ⟨c, (rfl | hc), hcm, hok⟩)
                · exact Or.inl hv
                · simp only at hcm
                  rw [hcm] at ho
                  exact absurd hok ho
                · exact Or.inr ⟨c, hc, hcm, hok⟩
        · rw [processMsgs_unhashable _ _ _ _ _ h1 (by simpa using h2)]
          simp
      · rw [processMsgs_skip_falsy _ _ _ _ _ (by simpa using h1)]
        exact ih seen v
    | vnull => rw [processMsgs_cons_nondict _ _ _ _ _ (by rfl)]; simp
    | vbool b => rw [processMsgs_cons_nondict _ _ _ _ _ (by rfl)]; simp
    | vint n => rw [processMsgs_cons_nondict _ _ _ _ _ (by rfl)]; simp
    | vstr s => rw [processMsgs_cons_nondict _ _ _ _ _ (by rfl)]; simp
    | vlist xs => rw [processMsgs_cons_nondict _ _ _ _ _ (by rfl)]; simp

theorem processMsgs_err_none (ok : Val → Bool) (email : String) (msgs : List Val)
    (hall : ∀ m ∈ msgs, safeMsg m = true) :
    ∀ seen, (processMsgs ok email msgs seen).err = none := by
  induction msgs with
  | nil =>
    intro seen
    rw [processMsgs_nil]
  | cons m rest ih =>
    intro seen
    have hm := hall m (List.mem_cons_self m rest)
    have hrest : ∀ m' ∈ rest, safeMsg m' = true :=
      fun m' hm' => hall m' (List.mem_cons_of_mem m hm')
    cases m with
    | vdict kvs =>
      by_cases h1 : ((dictGet kvs "id").getD .vnull).truthy
      · have h2 : ((dictGet kvs "id").getD .vnull).hashable = true := by
          simp only [safeMsg, h1, Bool.not_true, Bool.false_or] at hm
          exact hm
        by_cases h3 : (dictGet kvs "id").getD .vnull ∈ seen
        · rw [processMsgs_skip_seen _ _ _ _ _ h1 h2 h3]
          exact ih hrest seen
        · rw [processMsgs_notify _ _ _ _ _ h1 h2 h3]
          exact ih hrest _
      · rw [processMsgs_skip_falsy _ _ _ _ _ (by simpa using h1)]
        exact ih hrest seen
    | vnull => simp [safeMsg] at hm
    | vbool b => simp [safeMsg] at hm
    | vint n => simp [safeMsg] at hm
    | vstr s => simp [safeMsg] at hm
    | vlist xs => simp [safeMsg] at hm

theorem processMsgs_called (ok : Val → Bool) (email : String) (msgs : List Val) :
    ∀ seen (kvs : List (String × Val)),
      (∀ m ∈ msgs, safeMsg m = true) → Val.vdict kvs ∈ msgs →
      ((dictGet kvs "id").getD .vnull).truthy = true →
      (dictGet kvs "id").getD .vnull ∉ seen →
      ∃ c ∈ (processMsgs ok email msgs seen).calls,
        c.mid = (dictGet kvs "id").getD .vnull := by
  induction msgs with
  | nil =>
    intro seen kvs _ hmem
    cases hmem
  | cons m rest ih =>
    intro seen kvs hall hmem ht hs
    have hrest : ∀ m' ∈ rest, safeMsg m' = true :=
      fun m' hm' => hall m' (List.mem_cons_of_mem m hm')
    rcases List.mem_cons.mp hmem with heq | hmem'
    · subst heq
      have h2 : ((dictGet kvs "id").getD .vnull).hashable = true := by
        have hm := hall _ (List.mem_cons_self _ rest)
        simp only [safeMsg, ht, Bool.not_true, Bool.false_or] at hm
        exact hm
      rw [processMsgs_notify _ _ _ _ _ ht h2 hs]
      exact ⟨_, List.mem_cons_self _ _, rfl⟩
    · have hm := hall m (List.mem_cons_self m rest)
      cases m with
      | vdict kvs' =>
        by_cases h1 : ((dictGet kvs' "id").getD .vnull).truthy
        · have h2 : ((dictGet kvs' "id").getD .vnull).hashable = true := by
            simp only [safeMsg, h1, Bool.not_true, Bool.false_or] at hm
            exact hm
          by_cases h3 : (dictGet kvs' "id").getD .vnull ∈ seen
          · rw [processMsgs_skip_seen _ _ _ _ _ h1 h2 h3]
            exact ih seen kvs hrest hmem' ht hs
          · rw [processMsgs_notify _ _ _ _ _ h1 h2 h3]
            by_cases hid : (dictGet kvs' "id").getD .vnull = (dictGet kvs "id").getD .vnull
            · exact ⟨_, List.mem_cons_self _ _, hid⟩
            · have hs' : (dictGet kvs "id").getD .vnull ∉
                  (if ok ((dictGet kvs' "id").getD .vnull)
                   then setAdd seen ((dictGet kvs' "id").getD .vnull) else seen) := by
                by_cases ho : ok ((dictGet kvs' "id").getD .vnull)
                · rw [if_pos ho]
                  intro hmm
                  rcases (mem_setAdd _ _ _).mp hmm with hh | hh
                  · exact hid hh.symm
                  · exact hs hh
                · rw [if_neg ho]
                  exact hs
              obtain ⟨c, hc, hcm⟩ := ih _ kvs hrest hmem' ht hs'
              exact ⟨c, List.mem_cons_of_mem _ hc, hcm⟩
        · rw [processMsgs_skip_falsy _ _ _ _ _ (by simpa using h1)]
          exact ih seen kvs hrest hmem' ht hs
      | vnull => simp [safeMsg] at hm
      | vbool b => simp [safeMsg] at hm
      | vint n => simp [safeMsg] at hm
      | vstr s => simp [safeMsg] at hm
      | vlist xs => simp [safeMsg] at hm

theorem processPayload_seen_mono (ok : Val → Bool) (email : String) (mails : Val)
    (seen : List Val) (v : Val) (hv : v ∈ seen) :
    v ∈ (processPayload ok email mails seen).seen := by
  unfold processPayload
  split
  · exact hv
  · split
    · exact hv
    · exact processMsgs_seen_mono ok email _ seen v hv

theorem processPayload_not_called_of_seen (ok : Val → Bool) (email : String) (mails : Val)
    (seen : List Val) (mid : Val) (hmid : mid ∈ seen) :
    ∀ c ∈ (processPayload ok email mails seen).calls, c.mid ≠ mid := by
  unfold processPayload
  split
  · intro c hc
    cases hc
  · split
    · intro c hc
      cases hc
    · exact processMsgs_not_called_of_seen ok email _ seen mid hmid

theorem processPayload_err_none (ok : Val → Bool) (email : String) (mails : Val)
    (seen : List Val) (h : safePayload mails = true) :
    (processPayload ok email mails seen).err = none := by
  cases he : extractMessages mails with
  | none => simp [processPayload, he]
  | some mv =>
    cases hi : pyIter mv with
    | error e =>
      simp only [safePayload, he, hi] at h
      cases h
    | ok msgs =>
      simp only [safePayload, he, hi, List.all_eq_true] at h
      simp only [processPayload, he, hi]
      exact processMsgs_err_none ok email msgs h seen

theorem processPayload_skip (ok : Val → Bool) (email : String) (mails : Val)
    (seen : List Val) (h : extractMessages mails = none) :
    processPayload ok email mails seen = ⟨[], seen, none⟩ := by
  simp [processPayload, h]

theorem processPayload_msgs (ok : Val → Bool) (email : String) (mails : Val)
    (seen : List Val) (msgs : List Val)
    (h : extractMessages mails = some (.vlist msgs)) :
    processPayload ok email mails seen = processMsgs ok email msgs seen := by
  simp [processPayload, h, pyIter]

theorem tick_reg_shape (env : TickEnv) (reg : Registry) :
    (poll_inboxes_tick env reg).reg.map (fun p => (p.1, p.2.email)) =
      reg.map (fun p => (p.1, p.2.email)) := by
  induction reg with
  | nil => rfl
  | cons p rest ih =>
    obtain ⟨u, st⟩ := p
    simp only [poll_inboxes_tick]
    split
    · simp
    · simp [ih]

theorem tick_keys (env : TickEnv) (reg : Registry) :
    (poll_inboxes_tick env reg).reg.map Prod.fst = reg.map Prod.fst := by
  induction reg with
  | nil => rfl
  | cons p rest ih =>
    obtain ⟨u, st⟩ := p
    simp only [poll_inboxes_tick]
    split
    · simp
    · simp [ih]

theorem tick_calls_users (env : TickEnv) (reg : Registry) :
    ∀ pc ∈ (poll_inboxes_tick env reg).calls, pc.1 ∈ reg.map Prod.fst := by
  induction reg with
  | nil =>
    intro pc hc
    cases hc
  | cons p rest ih =>
    obtain ⟨u, st⟩ := p
    intro pc hc
    simp only [poll_inboxes_tick] at hc
    split at hc
    · obtain ⟨c, _, rfl⟩ := List.mem_map.mp hc
      simp
    · rcases List.mem_append.mp hc with hh | hh
      · obtain ⟨c, _, rfl⟩ := List.mem_map.mp hh
        simp
      · simp only [List.map_cons, List.mem_cons]
        exact Or.inr (ih pc hh)

theorem tick_entry (env : TickEnv) (reg : Registry) :
    ∀ u st, (reg.map Prod.fst).Nodup → (u, st) ∈ reg →
      ∃ st', (u, st') ∈ (poll_inboxes_tick env reg).reg ∧ st'.email = st.email ∧
        ∀ v ∈ st.seen, v ∈ st'.seen := by
  induction reg with
  | nil =>
    intro u st _ hm
    cases hm
  | cons p rest ih =>
    obtain ⟨u0, st0⟩ := p
    intro u st hnd hm
    simp only [List.map_cons, List.nodup_cons] at hnd
    simp only [poll_inboxes_tick]
    rcases List.mem_cons.mp hm with heq | hrest
    · injection heq with h1 h2
      subst h1
      subst h2
      split
      · exact ⟨_, List.mem_cons_self _ _, rfl,
          fun v hv => processPayload_seen_mono _ _ _ _ v hv⟩
      · exact ⟨_, List.mem_cons_self _ _, rfl,
          fun v hv => processPayload_seen_mono _ _ _ _ v hv⟩
    · split
      · exact ⟨st, List.mem_cons_of_mem _ hrest, rfl, fun v hv => hv⟩
      · obtain ⟨st', h1, h2, h3⟩ := ih u st hnd.2 hrest
        exact ⟨st', List.mem_cons_of_mem _ h1, h2, h3⟩

theorem tick_no_call_of_seen (env : TickEnv) (reg : Registry) :
    ∀ u st mid, (reg.map Prod.fst).Nodup → (u, st) ∈ reg → mid ∈ st.seen →
      ∀ pc ∈ (poll_inboxes_tick env reg).calls, ¬(pc.1 = u ∧ pc.2.mid = mid) := by
  induction reg with
  | nil =>
    intro u st mid _ hm
    cases hm
  | cons p rest ih =>
    obtain ⟨u0, st0⟩ := p
    intro u st mid hnd hm hs pc hc
    simp only [List.map_cons, List.nodup_cons] at hnd
    simp only [poll_inboxes_tick] at hc
    rcases List.mem_cons.mp hm with heq | hrest
    · injection heq with h1 h2
      subst h1
      subst h2
      split at hc
      · obtain ⟨c, hcc, rfl⟩ := List.mem_map.mp hc
        rintro ⟨-, hmid⟩
        exact processPayload_not_called_of_seen _ _ _ _ mid hs c hcc hmid
      · rcases List.mem_append.mp hc with hh | hh
        · obtain ⟨c, hcc, rfl⟩ := List.mem_map.mp hh
          rintro ⟨-, hmid⟩
          exact processPayload_not_called_of_seen _ _ _ _ mid hs c hcc hmid
        · rintro ⟨hpu, -⟩
          have hmem := tick_calls_users env rest pc hh
          rw [hpu] at hmem
          exact hnd.1 hmem
    · have hukeys : u ∈ rest.map Prod.fst := by
        have := List.mem_map_of_mem Prod.fst hrest
        simpa using this
      split at hc
      · obtain ⟨c, hcc, rfl⟩ := List.mem_map.mp hc
        rintro ⟨hpu, -⟩
        simp only at hpu
        rw [hpu] at hnd
        exact hnd.1 hukeys
      · rcases List.mem_append.mp hc with hh | hh
        · obtain ⟨c, hcc, rfl⟩ := List.mem_map.mp hh
          rintro ⟨hpu, -⟩
          simp only at hpu
          rw [hpu] at hnd
          exact hnd.1 hukeys
        · exact ih u st mid hnd.2 hrest hs pc hh

theorem tick_safe (env : TickEnv) :
    ∀ reg : Registry, (∀ p ∈ reg, safePayload (fetch_mailcx (env.fetch p.2.email)) = true) →
      poll_inboxes_tick env reg =
        ⟨reg.map (fun p => p.2.email),
         (reg.map (fun p => (processPayload (env.sendOk p.1) p.2.email
             (fetch_mailcx (env.fetch p.2.email)) p.2.seen).calls.map (fun c => (p.1, c)))).flatten,
         reg.map (fun p => (p.1, ⟨p.2.email, (processPayload (env.sendOk p.1) p.2.email
             (fetch_mailcx (env.fetch p.2.email)) p.2.seen).seen⟩)),
         none⟩ := by
  intro reg
  induction reg with
  | nil =>
    intro _
    rfl
  | cons p rest ih =>
    obtain ⟨u, st⟩ := p
    intro h
    have hh := h (u, st) (List.mem_cons_self _ _)
    have herr := processPayload_err_none (env.sendOk u) st.email _ st.seen hh
    simp only [poll_inboxes_tick, herr]
    rw [ih (fun q hq => h q (List.mem_cons_of_mem _ hq))]
    simp

theorem tick_fetches_sub (env : TickEnv) (reg : Registry) :
    ∀ a ∈ (poll_inboxes_tick env reg).fetches, ∃ p ∈ reg, p.2.email = a := by
  induction reg with
  | nil =>
    intro a ha
    cases ha
  | cons p rest ih =>
    obtain ⟨u, st⟩ := p
    intro a ha
    simp only [poll_inboxes_tick] at ha
    split at ha
    · rcases List.mem_singleton.mp ha with rfl
      exact ⟨(u, st), List.mem_cons_self _ _, rfl⟩
    · rcases List.mem_cons.mp ha with rfl | hh
      · exact ⟨(u, st), List.mem_cons_self _ _, rfl⟩
      · obtain ⟨q, hq, hqa⟩ := ih a hh
        exact ⟨q, List.mem_cons_of_mem _ hq, hqa⟩

theorem run_no_call_of_seen (envs : List TickEnv) :
    ∀ reg u st mid, (reg.map Prod.fst).Nodup → (u, st) ∈ reg → mid ∈ st.seen →
      ∀ tcs ∈ (poll_inboxes_run envs reg).1, ∀ pc ∈ tcs,
        ¬(pc.1 = u ∧ pc.2.mid = mid) := by
  induction envs with
  | nil =>
    intro reg u st mid _ _ _ tcs htcs
    cases htcs
  | cons env envs ih =>
    intro reg u st mid hnd hm hs tcs htcs pc hpc
    simp only [poll_inboxes_run] at htcs
    split at htcs
    · rcases List.mem_singleton.mp htcs with rfl
      exact tick_no_call_of_seen env reg u st mid hnd hm hs pc hpc
    · rcases List.mem_cons.mp htcs with rfl | htail
      · exact tick_no_call_of_seen env reg u st mid hnd hm hs pc hpc
      · obtain ⟨st', hmem', hemail', hmono'⟩ := tick_entry env reg u st hnd hm
        have hnd' : ((poll_inboxes_tick env reg).reg.map Prod.fst).Nodup := by
          rw [tick_keys]
          exact hnd
        exact ih _ u st' mid hnd' hmem' (hmono' mid hs) tcs htail pc hpc

/-! ## Claim theorems -/

/-- Claim C8: every generated address has a local part of length 6 or 7, its
first character a lowercase letter, every character a lowercase letter or
digit, and the address is the local part concatenated with the fixed domain
suffix. -/
theorem c8_generated_address_shape (r : Rng) (u : Int) (reg : Registry) :
    ∃ c cs, (make_random_username r).data = c :: cs ∧
      c ∈ ascii_lowercase ∧
      (∀ x ∈ c :: cs, x ∈ alphabet) ∧
      ((make_random_username r).length = 6 ∨ (make_random_username r).length = 7) ∧
      (cmd_generate r u reg).2 = make_random_username r ++ "@" ++ DEFAULT_DOMAIN := by
  refine ⟨choice ascii_lowercase 'a' r.pickFirst,
    (List.range (choice [USERNAME_MIN, USERNAME_MAX] 0 r.pickLen - 1)).map
      (fun i => choice alphabet 'a' (r.pickRest i)), rfl, ?_, ?_, ?_, rfl⟩
  · exact choice_mem _ _ _ (by decide)
  · intro x hx
    rcases List.mem_cons.mp hx with rfl | hx'
    · exact List.mem_append_left _ (choice_mem _ _ _ (by decide))
    · obtain ⟨i, _, rfl⟩ := List.mem_map.mp hx'
      exact choice_mem _ _ _ (by decide)
  · have h2 : r.pickLen % 2 = 0 ∨ r.pickLen % 2 = 1 := by omega
    have hlen : choice [USERNAME_MIN, USERNAME_MAX] 0 r.pickLen = USERNAME_MIN ∨
        choice [USERNAME_MIN, USERNAME_MAX] 0 r.pickLen = USERNAME_MAX := by
      rcases h2 with h2 | h2
      · left
        simp [choice, h2, List.getD]
      · right
        simp [choice, h2, List.getD]
    rcases hlen with h | h
    · left
      simp only [make_random_username, String.length, h]
      simp [USERNAME_MIN]
    · right
      simp only [make_random_username, String.length, h]
      simp [USERNAME_MAX]

/-- Claim C7: a second generate call for the same subscriber replaces the
first: only the most recent address with an empty delivered set is visible in
the registry afterwards, any entry for that subscriber equals the new
subscription, key uniqueness is preserved, and a subsequent poll tick only
fetches addresses of current registry entries (the orphaned mailbox is no
longer polled). -/
theorem c7_put_replaces (reg : Registry) (u : Int) (r1 r2 : Rng)
    (hnd : (reg.map Prod.fst).Nodup) :
    dictFind (cmd_generate r2 u (cmd_generate r1 u reg).1).1 u =
        some ⟨(cmd_generate r2 u (cmd_generate r1 u reg).1).2, []⟩ ∧
      (∀ st, (u, st) ∈ (cmd_generate r2 u (cmd_generate r1 u reg).1).1 →
        st = ⟨(cmd_generate r2 u (cmd_generate r1 u reg).1).2, []⟩) ∧
      ((cmd_generate r2 u (cmd_generate r1 u reg).1).1.map Prod.fst).Nodup ∧
      (∀ env a, a ∈ (poll_inboxes_tick env
          (cmd_generate r2 u (cmd_generate r1 u reg).1).1).fetches →
        ∃ p ∈ (cmd_generate r2 u (cmd_generate r1 u reg).1).1, p.2.email = a) := by
  have hnd1 : (((cmd_generate r1 u reg).1).map Prod.fst).Nodup :=
    nodup_dictSet reg u _ hnd
  refine ⟨dictFind_dictSet _ _ _, ?_, nodup_dictSet _ u _ hnd1, ?_⟩
  · intro st hst
    exact mem_dictSet_self _ u _ st hnd1 hst
  · intro env a ha
    exact tick_fetches_sub env _ a ha

/-- Claim C7 witness: two concrete generate calls for subscriber 42 on the
empty registry leave exactly the second subscription visible. -/
theorem c7_put_replaces_witness :
    dictFind (cmd_generate ⟨1, 1, fun _ => 1⟩ 42
        (cmd_generate ⟨0, 0, fun _ => 0⟩ 42 []).1).1 42 =
      some ⟨(cmd_generate ⟨1, 1, fun _ => 1⟩ 42
        (cmd_generate ⟨0, 0, fun _ => 0⟩ 42 []).1).2, []⟩ :=
  (c7_put_replaces [] 42 ⟨0, 0, fun _ => 0⟩ ⟨1, 1, fun _ => 1⟩ (by simp)).1

/-- Claim C4: a provider message that is a mapping with no id field is never
delivered and never crashes the tick: processing the tick with it present is
identical to processing the remaining messages (no notify call, no change to
the delivered set, no error, and processing continues). -/
theorem c4_missing_id_skipped (ok : Val → Bool) (email : String)
    (kvs : List (String × Val)) (rest : List Val) (seen : List Val)
    (h : dictGet kvs "id" = none) :
    processMsgs ok email (Val.vdict kvs :: rest) seen = processMsgs ok email rest seen := by
  apply processMsgs_skip_falsy
  rw [h]
  rfl

/-- Claim C4 witness: a concrete id-less message is skipped and the following
message is still processed. -/
theorem c4_missing_id_skipped_witness :
    processMsgs (fun _ => true) "a@nqmo.com"
        [Val.vdict [("subject", Val.vstr "Hi")], Val.vdict [("id", Val.vstr "m1")]] [] =
      processMsgs (fun _ => true) "a@nqmo.com" [Val.vdict [("id", Val.vstr "m1")]] [] :=
  c4_missing_id_skipped _ _ _ _ _ (by decide)

/-- Claim C5: a listMessages payload that is an object with a messages field
yields that field as the message sequence, a payload that is itself a list
yields the list, and any other shape is processed exactly like an empty
message sequence (no notify calls, no delivered-set change, no error). -/
theorem c5_payload_shapes (ok : Val → Bool) (email : String) (seen : List Val) :
    (∀ kvs msgs, dictGet kvs "messages" = some (.vlist msgs) →
        processPayload ok email (.vdict kvs) seen = processMsgs ok email msgs seen) ∧
      (∀ msgs, processPayload ok email (.vlist msgs) seen = processMsgs ok email msgs seen) ∧
      (∀ v, (∀ kvs, v = .vdict kvs → dictGet kvs "messages" = none) →
        (∀ xs, v ≠ .vlist xs) →
        processPayload ok email v seen = processPayload ok email (.vlist []) seen ∧
          processPayload ok email v seen = ⟨[], seen, none⟩) := by
  refine ⟨?_, ?_, ?_⟩
  · intro kvs msgs h
    exact processPayload_msgs _ _ _ _ _ (by simp [extractMessages, h])
  · intro msgs
    exact processPayload_msgs _ _ _ _ _ (by simp [extractMessages])
  · intro v hdict hlist
    have hnone : extractMessages v = none := by
      cases v with
      | vdict kvs => simpa [extractMessages] using hdict kvs rfl
      | vlist xs => exact absurd rfl (hlist xs)
      | vnull => rfl
      | vbool b => rfl
      | vint n => rfl
      | vstr s => rfl
    refine ⟨?_, processPayload_skip _ _ _ _ hnone⟩
    rw [processPayload_skip _ _ _ _ hnone,
      processPayload_msgs _ _ _ _ [] (by simp [extractMessages])]
    rfl

/-- Claim C5 witness: a bare-string payload is handled like an empty message
sequence for a concrete subscription. -/
theorem c5_payload_shapes_witness :
    processPayload (fun _ => true) "a@nqmo.com" (Val.vstr "weird") [] =
      (⟨[], [], none⟩ : SubResult) :=
  ((c5_payload_shapes (fun _ => true) "a@nqmo.com" []).2.2 (Val.vstr "weird")
    (fun _ h => nomatch h) (fun _ h => nomatch h)).2

/-- Claim C9: the view-action token is split at the first separator only: the
text before the first bar is the address and the entire remainder, bars
included, is the message id; the split fails exactly when the token contains
no separator, and a token with a separator never reaches the invalid-data
branch. -/
theorem c9_split_at_first_separator (a b s token : String) (outcome : HttpOutcome) :
    ('|' ∉ a.data → splitToken (a ++ "|" ++ b) = some (a, b)) ∧
      (splitToken s = none ↔ '|' ∉ s.data) ∧
      ('|' ∈ token.data → (callback_view_message token outcome).1 ≠ ViewResult.invalidData) := by
  refine ⟨fun h => splitToken_append a b h, splitToken_eq_none_iff s, fun h => ?_⟩
  unfold callback_view_message
  cases hs : splitToken token with
  | none => exact absurd h ((splitToken_eq_none_iff token).mp hs)
  | some p =>
    obtain ⟨e, m⟩ := p
    simp

/-- Claim C9 witness: a token whose id part itself contains a separator is
split at the first separator only. -/
theorem c9_split_at_first_separator_witness :
    splitToken ("abc123@nqmo.com" ++ "|" ++ "m|x") = some ("abc123@nqmo.com", "m|x") :=
  (c9_split_at_first_separator "abc123@nqmo.com" "m|x" "" "" (.exn "")).1 (by decide)

/-- Claim C10: when the provider fetch raises (transport error, timeout), the
fetch returns a dict containing only an error field, and the view handler
renders it as a normal message with all placeholder fields, showing no error
indication and not crashing. -/
theorem c10_fetch_error_placeholder (token e : String) (h : '|' ∈ token.data) :
    fetch_mailcx (.exn e) = .vdict [("error", .vstr e)] ∧
      (callback_view_message token (.exn e)).1 =
        .message "*Subject:* (no subject)\n*From:* unknown\n\n(no body)" := by
  refine ⟨rfl, ?_⟩
  unfold callback_view_message
  cases hs : splitToken token with
  | none => exact absurd h ((splitToken_eq_none_iff token).mp hs)
  | some p =>
    obtain ⟨em, mid⟩ := p
    show ViewResult.message (truncateText (renderFetched (fetch_mailcx (.exn e)))) = _
    have hr : renderFetched (fetch_mailcx (.exn e)) =
        "*Subject:* (no subject)\n*From:* unknown\n\n(no body)" := rfl
    rw [hr]
    rfl

/-- Claim C10 witness: a concrete timed-out fetch is rendered with the three
placeholder fields. -/
theorem c10_fetch_error_placeholder_witness :
    (callback_view_message "a@b|m1" (.exn "Cannot connect to host")).1 =
      .message "*Subject:* (no subject)\n*From:* unknown\n\n(no body)" :=
  (c10_fetch_error_placeholder "a@b|m1" "Cannot connect to host" (by decide)).2

theorem truncateText_of_le (t : String) (h : t.length ≤ TRUNC_LIMIT) :
    truncateText t = t := by
  unfold truncateText
  rw [if_neg (by omega)]

theorem truncateText_of_gt (t : String) (h : TRUNC_LIMIT < t.length) :
    truncateText t = String.mk (t.data.take TRUNC_LIMIT) ++ TRUNC_MARKER := by
  unfold truncateText
  rw [if_pos (by omega)]

theorem truncateText_length_le (t : String) :
    (truncateText t).length ≤ TRUNC_LIMIT + TRUNC_MARKER.length := by
  have hm : TRUNC_MARKER.length = 16 := rfl
  by_cases h : TRUNC_LIMIT < t.length
  · rw [truncateText_of_gt t h, String.length_append]
    have h1 : (String.mk (t.data.take TRUNC_LIMIT)).length ≤ TRUNC_LIMIT := by
      show (t.data.take TRUNC_LIMIT).length ≤ TRUNC_LIMIT
      simp [List.length_take]
    omega
  · rw [truncateText_of_le t (by omega)]
    omega

/-- Claim C6: a view-action token with no separator yields the invalid-data
result with no provider call; a token with a separator causes exactly one
fetchMessage call with the split address and id; when the fetch returns
subject/from/body strings whose rendering fits the limit, the rendered text
is exactly the subject/from/body format string (so it contains all three
fields) and is within the 3800-unit limit; and every rendered text is
truncated to at most 3800 units plus the truncation marker, the marker being
appended exactly when the limit is exceeded. -/
theorem c6_view_action (token a b txt t : String) (outcome : HttpOutcome) (st : Nat)
    (kvs : List (String × Val)) (s f bo : String) :
    ('|' ∉ token.data → callback_view_message token outcome = (.invalidData, [])) ∧
      ('|' ∉ a.data → (callback_view_message (a ++ "|" ++ b) outcome).2 = [(a, some b)]) ∧
      ('|' ∉ a.data → dictGet kvs "subject" = some (.vstr s) →
        dictGet kvs "from" = some (.vstr f) → dictGet kvs "body" = some (.vstr bo) →
        ("*Subject:* " ++ s ++ "\n*From:* " ++ f ++ "\n\n" ++ bo).length ≤ TRUNC_LIMIT →
        (callback_view_message (a ++ "|" ++ b) (.resp st txt (some (.vdict kvs)))).1 =
          .message ("*Subject:* " ++ s ++ "\n*From:* " ++ f ++ "\n\n" ++ bo)) ∧
      (t.length ≤ TRUNC_LIMIT → truncateText t = t) ∧
      (TRUNC_LIMIT < t.length →
        truncateText t = String.mk (t.data.take TRUNC_LIMIT) ++ TRUNC_MARKER) ∧
      ('|' ∈ token.data → ∃ mtext, (callback_view_message token outcome).1 = .message mtext ∧
        mtext.length ≤ TRUNC_LIMIT + TRUNC_MARKER.length) := by
  refine ⟨?_, ?_, ?_, truncateText_of_le t, truncateText_of_gt t, ?_⟩
  · intro h
    have hs := (splitToken_eq_none_iff token).mpr h
    simp [callback_view_message, hs]
  · intro h
    simp [callback_view_message, splitToken_append a b h]
  · intro h hsub hfrom hbody hlen
    simp only [callback_view_message, splitToken_append a b h]
    show ViewResult.message (truncateText (renderFetched (.vdict kvs))) = _
    have hr : renderFetched (.vdict kvs) =
        "*Subject:* " ++ s ++ "\n*From:* " ++ f ++ "\n\n" ++ bo := by
      simp [renderFetched, hsub, hfrom, hbody, Val.pystr]
    rw [hr, truncateText_of_le _ hlen]
  · intro h
    unfold callback_view_message
    cases hs : splitToken token with
    | none => exact absurd h ((splitToken_eq_none_iff token).mp hs)
    | some p =>
      obtain ⟨em, mid⟩ := p
      exact ⟨_, rfl, truncateText_length_le _⟩

/-- Claim C6 witness: the concrete scenario from the spec, with the token
split and the three fields rendered within the limit. -/
theorem c6_view_action_witness :
    (callback_view_message ("abc123@nqmo.com" ++ "|" ++ "m1")
        (.resp 200 "" (some (.vdict [("subject", Val.vstr "S"), ("from", Val.vstr "F"),
          ("body", Val.vstr "B")])))).1 =
      .message ("*Subject:* " ++ "S" ++ "\n*From:* " ++ "F" ++ "\n\n" ++ "B") :=
  (c6_view_action "garbage" "abc123@nqmo.com" "m1" "" "" (.exn "") 200
      [("subject", Val.vstr "S"), ("from", Val.vstr "F"), ("body", Val.vstr "B")]
      "S" "F" "B").2.2.1 (by decide) (by decide) (by decide) (by decide) (by decide)

/-- Claim C3 counterexample: a non-2xx response with an unparseable body
makes fetch_mailcx return the raw body text, not a FetchError value carrying
the cause — the status code is never inspected and unparseable bodies are
returned verbatim, so the claim as stated is false at this input. -/
theorem c3_counterexample :
    fetch_mailcx (.resp 500 "Internal Server Error" none) =
        .vstr "Internal Server Error" ∧
      isFetchError (fetch_mailcx (.resp 500 "Internal Server Error" none)) = false :=
  ⟨rfl, rfl⟩

/-- Claim C3 (amended): fetch_mailcx never raises past its boundary; a raised
exception (transport failure, timeout) yields the error dict carrying the
cause; the status code is never inspected (the result is independent of it);
an unparseable response yields the raw body text; on an exception outcome the
poll loop skips the subscription — no notify call, delivered set unchanged,
no crash — and a tick over subscriptions whose fetches all raise queries
every address, changes nothing, and leaves the loop alive, so the next tick
queries the same addresses again. -/
theorem c3_fetch_error_behavior (e t : String) (s s' : Nat) (j : Option Val)
    (ok : Val → Bool) (email : String) (seen : List Val) :
    fetch_mailcx (.exn e) = .vdict [("error", .vstr e)] ∧
      isFetchError (fetch_mailcx (.exn e)) = true ∧
      fetch_mailcx (.resp s t j) = fetch_mailcx (.resp s' t j) ∧
      fetch_mailcx (.resp s t none) = .vstr t ∧
      processPayload ok email (fetch_mailcx (.exn e)) seen = ⟨[], seen, none⟩ ∧
      (∀ (env : TickEnv) (reg : Registry),
        (∀ p ∈ reg, ∃ e', env.fetch p.2.email = .exn e') →
        poll_inboxes_tick env reg =
          ⟨reg.map (fun p => p.2.email), [], reg, none⟩) := by
  refine ⟨rfl, rfl, rfl, rfl, processPayload_skip _ _ _ _ rfl, ?_⟩
  intro env reg
  induction reg with
  | nil =>
    intro _
    rfl
  | cons p rest ih =>
    obtain ⟨u, st⟩ := p
    intro h
    obtain ⟨e', he⟩ := h (u, st) (List.mem_cons_self _ _)
    simp only [poll_inboxes_tick, he]
    rw [processPayload_skip (env.sendOk u) st.email (fetch_mailcx (.exn e')) st.seen rfl]
    simp only [List.map_cons]
    rw [ih (fun q hq => h q (List.mem_cons_of_mem _ hq))]
    rfl

/-- Claim C3 witness: a tick in which subscriber 7's query times out makes no
notify call, leaves its delivered set unchanged, and still queries (and will
re-query) the address. -/
theorem c3_fetch_error_behavior_witness :
    poll_inboxes_tick ⟨fun _ => .exn "TimeoutError", fun _ _ => true⟩
        [(7, ⟨"x7@nqmo.com", [Val.vstr "old"]⟩)] =
      ⟨[(7, (⟨"x7@nqmo.com", [Val.vstr "old"]⟩ : SubState))].map (fun p => p.2.email), [],
        [(7, ⟨"x7@nqmo.com", [Val.vstr "old"]⟩)], none⟩ :=
  (c3_fetch_error_behavior "x" "" 0 0 none (fun _ => true) "" []).2.2.2.2.2
    ⟨fun _ => .exn "TimeoutError", fun _ _ => true⟩
    [(7, ⟨"x7@nqmo.com", [Val.vstr "old"]⟩)]
    (fun _ _ => ⟨"TimeoutError", rfl⟩)

/-- Claim C2 counterexample: a malformed (non-mapping) message entry in the
first subscription's payload raises an uncaught AttributeError that aborts
the whole tick: the second subscription is never fetched and its fresh
message gets no notify call, and the error surfaces out of the poll loop —
so the claim that no per-subscription error propagates is false at this
input. -/
theorem c2_counterexample :
    (let env : TickEnv :=
      ⟨fun adr => if adr = "bad@nqmo.com"
        then .resp 200 "" (some (.vlist [.vstr "boom"]))
        else .resp 200 "" (some (.vlist [.vdict [("id", .vstr "m2")]])),
       fun _ _ => true⟩;
     let reg : Registry := [(1, ⟨"bad@nqmo.com", []⟩), (2, ⟨"good@nqmo.com", []⟩)];
     (poll_inboxes_tick env reg).err.isSome = true ∧
       (poll_inboxes_tick env reg).calls = [] ∧
       (poll_inboxes_tick env reg).reg = reg ∧
       (poll_inboxes_tick env reg).fetches = ["bad@nqmo.com"]) := by
  decide

/-- Claim C2 (amended): provider-query failures (raised exceptions),
unparseable bodies, unrecognized payload shapes, and delivery-sink failures
are all handled locally: an exception outcome and a raw-text body are both
safe payloads; a message list all of whose entries are mappings with
hashable-or-falsy ids never raises regardless of sink outcomes; and a tick in
which every subscription's payload is safe processes every subscription
independently — each entry's calls and new state are a function of that
entry's own fetch outcome and state alone — and the loop never crashes.
However (per the counterexample) a malformed message entry — a non-mapping
entry, a truthy unhashable id, or a non-iterable messages field — raises an
uncaught exception that aborts the remaining subscriptions of the tick and
the poll loop itself. -/
theorem c2_error_isolation (e t : String) (sNat : Nat) (ok : Val → Bool)
    (email : String) (msgs : List Val) (seen : List Val) :
    safePayload (fetch_mailcx (.exn e)) = true ∧
      safePayload (fetch_mailcx (.resp sNat t none)) = true ∧
      ((∀ m ∈ msgs, safeMsg m = true) → (processMsgs ok email msgs seen).err = none) ∧
      (∀ (env : TickEnv) (reg : Registry),
        (∀ p ∈ reg, safePayload (fetch_mailcx (env.fetch p.2.email)) = true) →
        poll_inboxes_tick env reg =
          ⟨reg.map (fun p => p.2.email),
           (reg.map (fun p => (processPayload (env.sendOk p.1) p.2.email
               (fetch_mailcx (env.fetch p.2.email)) p.2.seen).calls.map
                 (fun c => (p.1, c)))).flatten,
           reg.map (fun p => (p.1, ⟨p.2.email, (processPayload (env.sendOk p.1) p.2.email
               (fetch_mailcx (env.fetch p.2.email)) p.2.seen).seen⟩)),
           none⟩) :=
  ⟨rfl, rfl, fun h => processMsgs_err_none ok email msgs h seen,
    fun env reg h => tick_safe env reg h⟩

/-- Claim C2 witness: a tick whose first subscription's fetch raises and
whose second has a well-formed new message finishes without crashing. -/
theorem c2_error_isolation_witness :
    (poll_inboxes_tick
        ⟨fun adr => if adr = "a@nqmo.com" then .exn "boom"
          else .resp 200 "" (some (.vlist [.vdict [("id", .vstr "m2")]])),
         fun _ _ => true⟩
        [(1, ⟨"a@nqmo.com", []⟩), (2, ⟨"b@nqmo.com", []⟩)]).err = none := by
  rw [(c2_error_isolation "x" "" 0 (fun _ => true) "" [] []).2.2.2
    ⟨fun adr => if adr = "a@nqmo.com" then .exn "boom"
      else .resp 200 "" (some (.vlist [.vdict [("id", .vstr "m2")]])),
     fun _ _ => true⟩
    [(1, ⟨"a@nqmo.com", []⟩), (2, ⟨"b@nqmo.com", []⟩)] (by decide)]

/-- Claim C1 counterexample: with an empty delivered set and the provider
returning a malformed entry followed by a well-formed message carrying the
fresh id m1, no notify call is ever attempted for m1: the AttributeError
raised by the malformed entry aborts the tick (and kills the polling task)
before m1 is reached, so the claim's universal "the poll loop invokes notify
for every message with an id not in the delivered set" is false here. -/
theorem c1_counterexample :
    (let res := processMsgs (fun _ => true) "a@nqmo.com"
        [Val.vstr "boom", Val.vdict [("id", Val.vstr "m1")]] [];
     res.calls = [] ∧ res.seen = [] ∧ res.err.isSome = true) := by
  decide

/-- Claim C1 (amended): when every entry of the returned message sequence is
a mapping whose id is hashable when truthy, every message whose truthy id is
not yet in the delivered set gets a notify call; unconditionally, an id is in
the final delivered set exactly when it was already there or a notify call
for it succeeded (mark on success only — a failed notify leaves the id
absent, hence eligible again on a later tick); ids already delivered are
never the subject of a notify call; and across any sequence of later ticks, a
subscription id pair whose id is in the delivered set never receives another
notify attempt. -/
theorem c1_mark_on_success (ok : Val → Bool) (email : String) (msgs : List Val)
    (seen : List Val) :
    ((∀ m ∈ msgs, safeMsg m = true) →
      ∀ kvs, Val.vdict kvs ∈ msgs → ((dictGet kvs "id").getD .vnull).truthy = true →
        (dictGet kvs "id").getD .vnull ∉ seen →
        ∃ c ∈ (processMsgs ok email msgs seen).calls,
          c.mid = (dictGet kvs "id").getD .vnull) ∧
      (∀ v, v ∈ (processMsgs ok email msgs seen).seen ↔
        v ∈ seen ∨ ∃ c ∈ (processMsgs ok email msgs seen).calls,
          c.mid = v ∧ ok v = true) ∧
      (∀ v, v ∈ seen → ∀ c ∈ (processMsgs ok email msgs seen).calls, c.mid ≠ v) ∧
      (∀ (envs : List TickEnv) (reg : Registry) (u : Int) (st : SubState) (mid : Val),
        (reg.map Prod.fst).Nodup → (u, st) ∈ reg → mid ∈ st.seen →
        ∀ tcs ∈ (poll_inboxes_run envs reg).1, ∀ pc ∈ tcs,
          ¬(pc.1 = u ∧ pc.2.mid = mid)) := by
  refine ⟨?_, processMsgs_seen_iff ok email msgs seen,
    fun v hv => processMsgs_not_called_of_seen ok email msgs seen v hv,
    run_no_call_of_seen⟩
  intro hall kvs hmem ht hs
  exact processMsgs_called ok email msgs seen kvs hall hmem ht hs

/-- Claim C1 witness: a concrete fresh message with id m1 receives a notify
call. -/
theorem c1_mark_on_success_witness :
    ∃ c ∈ (processMsgs (fun _ => true) "a@nqmo.com"
        [Val.vdict [("id", Val.vstr "m1")]] []).calls,
      c.mid = (dictGet [("id", Val.vstr "m1")] "id").getD .vnull :=
  (c1_mark_on_success (fun _ => true) "a@nqmo.com"
      [Val.vdict [("id", Val.vstr "m1")]] []).1 (by decide)
    [("id", Val.vstr "m1")] (by decide) (by decide) (by decide)
